import Mathlib

/-!
Verification of the Harvest Notifier core (unified application module).

The JavaScript source is embedded shallowly:

* Calendar instants handled by the workday calculator are modelled as integer
  day numbers counted from a Sunday epoch, so that the moment `.day()` accessor
  (0 = Sunday … 6 = Saturday) becomes `emod 7`.  Where the sub-day time part of
  a moment matters (the `endOf week` instant sits at 23:59:59.999), the
  definition works on milliseconds explicitly.
* JavaScript numbers are modelled as rationals; `Math.round` is the
  round-half-up function, `Math.floor` the floor; `parseFloat` of an unset or
  unparseable environment variable is modelled by an `Option` field, and the
  JavaScript `x || d` default idiom is expanded on that option.
* Calendar dates manipulated by the scheduler are records of year, month and
  day; the moment operations subtract, startOf and endOf are given by explicit
  Gregorian calendar arithmetic, and a rata-die day number connects dates to
  weekdays (1970-01-01, day number 0, is a Thursday).
* The analyzer is modelled as the pure function of the already-fetched data:
  a roster (an option, none when the fetched value is missing or not an
  array), a time report and the date range, with the environment as an
  explicit configuration record.  The forEach-and-push loop is a filterMap.
-/

/-! ## Day-number model of the workday calculator -/

/-- The moment accessor `day()` on a day number counted from a Sunday epoch:
0 = Sunday, 1 = Monday, …, 6 = Saturday. -/
def momentDay (d : ℤ) : ℤ := d % 7

/-- `start.clone().endOf(week)`: the Saturday of the Sunday-based week of `d`
(date part; the 23:59:59.999 time part is accounted for in `momentDiffDays`). -/
def endOfWeekDay (d : ℤ) : ℤ := d + (6 - momentDay d)

/-- `end.clone().startOf(week)`: the Sunday of the Sunday-based week of `d`. -/
def startOfWeekDay (d : ℤ) : ℤ := d - momentDay d

/-- `last.diff(first, days)` where `last` is a start-of-week moment (midnight)
and `first` an end-of-week moment (23:59:59.999 of its day): moment subtracts
the millisecond timestamps, scales to days and truncates toward zero. -/
def momentDiffDays (last first : ℤ) : ℤ :=
  -- last midnight minus (first midnight plus 86399999 ms), truncated toward 0
  if 0 ≤ last * 86400000 - (first * 86400000 + 86399999) then
    (last * 86400000 - (first * 86400000 + 86399999)) / 86400000
  else
    -((-(last * 86400000 - (first * 86400000 + 86399999))) / 86400000)

/-- `workday_count` from the unified application module: end-of-first-week and
start-of-last-week boundaries, five workdays per full week in between
(`Math.floor((diff * 5) / 7)`, floor division since the divisor is positive),
and minus-one corrections when `start` falls on Sunday or `end` on Saturday. -/
def workday_count (start end_ : ℤ) : ℤ :=
  (momentDay (endOfWeekDay start) - momentDay start -
      (if momentDay start = 0 then 1 else 0)) +
    (momentDiffDays (startOfWeekDay end_) (endOfWeekDay start)) * 5 / 7 +
    (momentDay end_ - momentDay (startOfWeekDay end_) -
      (if momentDay end_ = 6 then 1 else 0))

/-- A day number falls on a weekday (Monday through Friday). -/
def isWeekday (d : ℤ) : Bool := decide (1 ≤ momentDay d ∧ momentDay d ≤ 5)

/-- Modelled from the spec wording, for the refinement claim: the number of
calendar days in the inclusive range whose day of week is Monday-Friday. -/
def weekdayCountSpec (start end_ : ℤ) : ℤ :=
  ((List.range (end_ + 1 - start).toNat).filter
    fun (i : ℕ) => isWeekday (start + (i : ℤ))).length

lemma momentDiffDays_eq (last first : ℤ) :
    momentDiffDays last first =
      if first < last then last - first - 1 else last - first := by
  unfold momentDiffDays
  split_ifs <;> omega

lemma workday_count_succ (s e : ℤ) :
    workday_count s (e + 1) =
      workday_count s e + (if isWeekday (e + 1) then 1 else 0) := by
  simp only [workday_count, momentDiffDays_eq, momentDay, endOfWeekDay,
    startOfWeekDay, isWeekday, decide_eq_true_eq]
  split_ifs <;> omega

lemma workday_count_self (s : ℤ) :
    workday_count s s = if isWeekday s then 1 else 0 := by
  simp only [workday_count, momentDiffDays_eq, momentDay, endOfWeekDay,
    startOfWeekDay, isWeekday, decide_eq_true_eq]
  split_ifs <;> omega

lemma weekdayCountSpec_self (s : ℤ) :
    weekdayCountSpec s s = if isWeekday s then 1 else 0 := by
  unfold weekdayCountSpec
  have h1 : (s + 1 - s).toNat = 1 := by omega
  rw [h1]
  rcases Bool.eq_false_or_eq_true (isWeekday s) with hw | hw <;>
    simp [List.range_succ, hw]

lemma weekdayCountSpec_succ (s e : ℤ) (h : s ≤ e) :
    weekdayCountSpec s (e + 1) =
      weekdayCountSpec s e + (if isWeekday (e + 1) then 1 else 0) := by
  unfold weekdayCountSpec
  have h1 : (e + 1 + 1 - s).toNat = (e + 1 - s).toNat + 1 := by omega
  have h2 : s + ((e + 1 - s).toNat : ℤ) = e + 1 := by omega
  rw [h1, List.range_succ, List.filter_append, List.length_append]
  simp only [List.filter_cons, List.filter_nil, h2]
  rcases Bool.eq_false_or_eq_true (isWeekday (e + 1)) with hw | hw <;> simp [hw]

/-- The workday calculator agrees with the weekday count on every range with
`start ≤ end`. -/
lemma workday_count_correct (s e : ℤ) (h : s ≤ e) :
    workday_count s e = weekdayCountSpec s e := by
  have key : ∀ n : ℕ, workday_count s (s + n) = weekdayCountSpec s (s + n) := by
    intro n
    induction n with
    | zero => simpa using (workday_count_self s).trans (weekdayCountSpec_self s).symm
    | succ k ih =>
        have hse : s ≤ s + k := by omega
        have h1 : (s + (k + 1 : ℕ) : ℤ) = (s + k) + 1 := by push_cast; ring
        rw [h1, workday_count_succ, weekdayCountSpec_succ s (s + k) hse, ih]
  have h2 : e = s + ((e - s).toNat : ℤ) := by omega
  rw [h2]
  exact key (e - s).toNat

/-! ## JavaScript numbers, configuration, users, thresholds -/

/-- The JavaScript `Math.round`: round half toward positive infinity. -/
def jsRound (x : ℚ) : ℤ := ⌊x + 1 / 2⌋

/-- `calculateExpectedWorkingDays` from the source: weekly capacity in seconds
to hours, hours to working days, rounded to two decimal places. -/
def calculateExpectedWorkingDays (weeklyCapacity : ℚ) (hoursPerDay : ℚ := 8) : ℚ :=
  (jsRound (weeklyCapacity / 3600 / hoursPerDay * 100) : ℚ) / 100

/-- The environment variables the engine reads, parsed once: a field is none
when the variable is unset or `parseFloat` returned NaN. -/
structure Config where
  missingHoursThreshold : Option ℚ
  dailyCapacityThreshold : Option ℚ

/-- `parseFloat(process.env.MISSING_HOURS_THRESHOLD) || 7.5` (NaN and 0 are
falsy, so both fall back to the default). -/
def baseHoursPerDay (cfg : Config) : ℚ :=
  match cfg.missingHoursThreshold with
  | none => 7.5
  | some x => if x = 0 then 7.5 else x

/-- `parseFloat(process.env.DAILY_NOTIFICATION_WEEKLY_CAPACITY_THRESHOLD) || 0`. -/
def dailyThresholdVal (cfg : Config) : ℚ :=
  match cfg.dailyCapacityThreshold with
  | none => 0
  | some x => if x = 0 then 0 else x

/-- A Harvest user as the engine reads it.  Only the fields the core logic
touches are modelled; `weekly_capacity` is none for null or undefined. -/
structure User where
  id : ℤ
  weekly_capacity : Option ℚ
  deriving DecidableEq

/-- The numeric value JavaScript arithmetic sees for `weekly_capacity` at the
places the guards have already ruled out null and undefined. -/
def wcVal (u : User) : ℚ := u.weekly_capacity.getD 0

/-- `shouldIncludeInNotifications` from the source: false when
`weekly_capacity` is falsy (null, undefined, zero) or nonpositive, otherwise
the capacity-in-hours-positive test. -/
def shouldIncludeInNotifications (u : User) : Bool :=
  match u.weekly_capacity with
  | none => false
  | some w => if w = 0 ∨ w ≤ 0 then false else decide (w / 3600 > 0)

/-- `shouldIncludeInDailyNotifications` from the source. -/
def shouldIncludeInDailyNotifications (cfg : Config) (u : User) : Bool :=
  decide (wcVal u / 3600 ≥ dailyThresholdVal cfg)

/-- `calculatePersonalizedThreshold` from the source, with the environment
passed explicitly and the date range as day numbers. -/
def calculatePersonalizedThreshold (cfg : Config) (user : User)
    (notificationType : String)
    (timeSheetDateToCheckFrom timeSheetDateToCheckTo : ℤ) : ℚ :=
  if notificationType = "daily" then baseHoursPerDay cfg
  else if notificationType = "weekly" then
    baseHoursPerDay cfg * calculateExpectedWorkingDays (wcVal user)
  else if notificationType = "monthly" then
    baseHoursPerDay cfg *
      ((workday_count timeSheetDateToCheckFrom timeSheetDateToCheckTo : ℚ) *
          calculateExpectedWorkingDays (wcVal user) / 5)
  else baseHoursPerDay cfg

/-- A Harvest time-report row as the analyzer reads it. -/
structure TimeEntry where
  user_id : ℤ
  total_hours : ℚ

/-- The filter-by-user and reduce-with-initial-zero over the time report. -/
def sumHoursFor (report : List TimeEntry) (uid : ℤ) : ℚ :=
  (report.filter fun t => decide (t.user_id = uid)).foldl
    (fun sum r => sum + r.total_hours) 0

/-- The record pushed onto `usersToNotify`: the user object spread together
with `totalHours` and `expectedHours`. -/
structure ShortfallRecord where
  user : User
  totalHours : ℚ
  expectedHours : ℚ
  deriving DecidableEq

/-- Body of the forEach over `harvestUsers`: the optional record one user
contributes to `usersToNotify`. -/
def analyzeUser (cfg : Config) (report : List TimeEntry)
    (timeSheetDateToCheckFrom timeSheetDateToCheckTo : ℤ)
    (notificationType : String) (user : User) : Option ShortfallRecord :=
  if shouldIncludeInNotifications user = false then none
  else
    let totalHours := sumHoursFor report user.id
    let personalizedThreshold :=
      calculatePersonalizedThreshold cfg user notificationType
        timeSheetDateToCheckFrom timeSheetDateToCheckTo
    if notificationType = "daily" ∧
        shouldIncludeInDailyNotifications cfg user = false then none
    else if totalHours < personalizedThreshold then
      some ⟨user, totalHours, personalizedThreshold⟩
    else none

/-- `analyzeHarvestData` from the source as the pure function of the fetched
data; the roster option is none when the fetched value is missing or not an
array, in which case the analyzer answers the empty list instead of failing. -/
def analyzeHarvestData (cfg : Config) (harvestUsers : Option (List User))
    (harvestTeamTimeReport : List TimeEntry)
    (timeSheetDateToCheckFrom timeSheetDateToCheckTo : ℤ)
    (notificationType : String) : List ShortfallRecord :=
  match harvestUsers with
  | none => []
  | some users =>
      users.filterMap
        (analyzeUser cfg harvestTeamTimeReport timeSheetDateToCheckFrom
          timeSheetDateToCheckTo notificationType)

lemma analyzeUser_eq_some (cfg : Config) (report : List TimeEntry)
    (f t : ℤ) (nt : String) (u : User) (r : ShortfallRecord) :
    analyzeUser cfg report f t nt u = some r ↔
      shouldIncludeInNotifications u = true ∧
      (nt = "daily" → shouldIncludeInDailyNotifications cfg u = true) ∧
      sumHoursFor report u.id < calculatePersonalizedThreshold cfg u nt f t ∧
      r = ⟨u, sumHoursFor report u.id, calculatePersonalizedThreshold cfg u nt f t⟩ := by
  simp only [analyzeUser]
  split_ifs with h1 h2 h3
  · simp [h1]
  · obtain ⟨h2a, h2b⟩ := h2
    rw [Bool.not_eq_false] at h1
    simp [h1, h2a, h2b]
  · have hImp : nt = "daily" → shouldIncludeInDailyNotifications cfg u = true := by
      intro hd
      rcases Bool.eq_false_or_eq_true (shouldIncludeInDailyNotifications cfg u) with hh | hh
      · exact hh
      · exact absurd ⟨hd, hh⟩ h2
    rw [Bool.not_eq_false] at h1
    simp only [Option.some.injEq]
    constructor
    · intro h
      exact ⟨h1, hImp, h3, h.symm⟩
    · rintro ⟨-, -, -, h⟩
      exact h.symm
  · simp [h3]

/-! ## Civil calendar model of the scheduler -/

/-- The Gregorian leap-year rule, as moment computes it. -/
abbrev isLeapYear (y : ℤ) : Prop := (y % 4 = 0 ∧ y % 100 ≠ 0) ∨ y % 400 = 0

/-- Lengths of the Gregorian months. -/
def daysInMonth (y m : ℤ) : ℤ :=
  if m = 2 then (if isLeapYear y then 29 else 28)
  else if m = 4 ∨ m = 6 ∨ m = 9 ∨ m = 11 then 30
  else 31

/-- A calendar date as moment formats it: year, month (1-12), day of month. -/
structure Date where
  year : ℤ
  month : ℤ
  day : ℤ
  deriving DecidableEq

/-- A date that names a real calendar day. -/
abbrev ValidDate (dt : Date) : Prop :=
  1 ≤ dt.month ∧ dt.month ≤ 12 ∧ 1 ≤ dt.day ∧
    dt.day ≤ daysInMonth dt.year dt.month

/-- The year of the March-based shifted calendar used by the day-number
computation. -/
def hYear (dt : Date) : ℤ := if dt.month ≤ 2 then dt.year - 1 else dt.year

/-- Day of the shifted year. -/
def hDoy (dt : Date) : ℤ :=
  (153 * (if 2 < dt.month then dt.month - 3 else dt.month + 9) + 2) / 5 +
    dt.day - 1

/-- Rata-die day number of a civil date, the timestamp scale of moment in
days: 1970-01-01 is day 0 (a Thursday). -/
def toDayNumber (dt : Date) : ℤ :=
  hYear dt / 400 * 146097 +
    ((hYear dt - hYear dt / 400 * 400) * 365 +
      (hYear dt - hYear dt / 400 * 400) / 4 -
      (hYear dt - hYear dt / 400 * 400) / 100 + hDoy dt) - 719468

/-- The moment accessor `day()` on a civil date: 0 = Sunday … 6 = Saturday. -/
def dowOfDate (dt : Date) : ℤ := (toDayNumber dt + 4) % 7

/-- The moment format `dddd`. -/
def weekdayName (w : ℤ) : String :=
  if w = 0 then "Sunday"
  else if w = 1 then "Monday"
  else if w = 2 then "Tuesday"
  else if w = 3 then "Wednesday"
  else if w = 4 then "Thursday"
  else if w = 5 then "Friday"
  else "Saturday"

/-- One calendar day back. -/
def predDate (dt : Date) : Date :=
  if 1 < dt.day then ⟨dt.year, dt.month, dt.day - 1⟩
  else if 1 < dt.month then
    ⟨dt.year, dt.month - 1, daysInMonth dt.year (dt.month - 1)⟩
  else ⟨dt.year - 1, 12, 31⟩

/-- One calendar day forward. -/
def succDate (dt : Date) : Date :=
  if dt.day < daysInMonth dt.year dt.month then ⟨dt.year, dt.month, dt.day + 1⟩
  else if dt.month < 12 then ⟨dt.year, dt.month + 1, 1⟩
  else ⟨dt.year + 1, 1, 1⟩

/-- `subtract(n, days)` on a moment holding a calendar date. -/
def subDays (dt : Date) : ℕ → Date
  | 0 => dt
  | n + 1 => predDate (subDays dt n)

/-- `add(n, days)` on a moment holding a calendar date. -/
def addDays (dt : Date) : ℕ → Date
  | 0 => dt
  | n + 1 => succDate (addDays dt n)

/-- `startOf(month)`. -/
def startOfMonth (dt : Date) : Date := ⟨dt.year, dt.month, 1⟩

/-- `endOf(month)`. -/
def endOfMonth (dt : Date) : Date :=
  ⟨dt.year, dt.month, daysInMonth dt.year dt.month⟩

/-- `determineNotificationsToRun` from the source, with the current date
passed explicitly: daily on non-weekend days, weekly on Fridays, monthly on
the last calendar day of the month, pushed in that order. -/
def determineNotificationsToRun (currentDate : Date) : List String :=
  (if (["Saturday", "Sunday"].contains (weekdayName (dowOfDate currentDate)))
      = false then ["daily"] else []) ++
    (if weekdayName (dowOfDate currentDate) = "Friday" then ["weekly"] else []) ++
    (if currentDate = endOfMonth currentDate then ["monthly"] else [])

/-- `getDateRangeForNotification` from the source, with the current date
passed explicitly; the thrown error on an unknown tag becomes `Except.error`. -/
def getDateRangeForNotification (notificationType : String)
    (currentDate : Date) : Except String (Date × Date) :=
  if notificationType = "daily" then
    if ["Tuesday", "Wednesday", "Thursday", "Friday"].contains
        (weekdayName (dowOfDate currentDate)) then
      Except.ok (subDays currentDate 1, subDays currentDate 1)
    else
      Except.ok (subDays currentDate 3, subDays currentDate 3)
  else if notificationType = "weekly" then
    Except.ok
      (addDays (subDays currentDate (dowOfDate currentDate).toNat) 1, currentDate)
  else if notificationType = "monthly" then
    Except.ok (startOfMonth currentDate, endOfMonth currentDate)
  else Except.error ("Unknown notification type: " ++ notificationType)

lemma predDate_lemma (dt : Date) (h : ValidDate dt) :
    ValidDate (predDate dt) ∧ toDayNumber (predDate dt) = toDayNumber dt - 1 := by
  obtain ⟨hm1, hm2, hd1, hd2⟩ := h
  simp only [daysInMonth, isLeapYear] at hd2
  unfold predDate
  split_ifs with hA hB <;>
    · constructor
      · simp only [ValidDate, daysInMonth, isLeapYear]
        split_ifs <;> omega
      · simp only [toDayNumber, hYear, hDoy, daysInMonth, isLeapYear]
        split_ifs <;> omega

set_option maxHeartbeats 1000000 in
lemma succDate_lemma (dt : Date) (h : ValidDate dt) :
    ValidDate (succDate dt) ∧ toDayNumber (succDate dt) = toDayNumber dt + 1 := by
  obtain ⟨hm1, hm2, hd1, hd2⟩ := h
  simp only [daysInMonth, isLeapYear] at hd2
  unfold succDate
  split_ifs with hA hB <;>
    · simp only [ValidDate, toDayNumber, hYear, hDoy, daysInMonth,
        isLeapYear] at hA ⊢
      split_ifs at hA ⊢ <;> omega

lemma subDays_lemma (dt : Date) (h : ValidDate dt) (n : ℕ) :
    ValidDate (subDays dt n) ∧ toDayNumber (subDays dt n) = toDayNumber dt - n := by
  induction n with
  | zero => exact ⟨h, by simp [subDays]⟩
  | succ k ih =>
      obtain ⟨ihv, ihd⟩ := ih
      obtain ⟨hv, hd⟩ := predDate_lemma (subDays dt k) ihv
      refine ⟨hv, ?_⟩
      show toDayNumber (predDate (subDays dt k)) = _
      rw [hd, ihd]
      push_cast
      ring

lemma addDays_lemma (dt : Date) (h : ValidDate dt) (n : ℕ) :
    ValidDate (addDays dt n) ∧ toDayNumber (addDays dt n) = toDayNumber dt + n := by
  induction n with
  | zero => exact ⟨h, by simp [addDays]⟩
  | succ k ih =>
      obtain ⟨ihv, ihd⟩ := ih
      obtain ⟨hv, hd⟩ := succDate_lemma (addDays dt k) ihv
      refine ⟨hv, ?_⟩
      show toDayNumber (succDate (addDays dt k)) = _
      rw [hd, ihd]
      push_cast
      ring

lemma dowOfDate_bounds (dt : Date) : 0 ≤ dowOfDate dt ∧ dowOfDate dt < 7 := by
  unfold dowOfDate
  omega

lemma weekdayName_friday_iff (w : ℤ) (h0 : 0 ≤ w) (h6 : w < 7) :
    weekdayName w = "Friday" ↔ w = 5 := by
  interval_cases w <;> simp [weekdayName]

lemma weekdayName_weekend_iff (w : ℤ) (h0 : 0 ≤ w) (h6 : w < 7) :
    (["Saturday", "Sunday"].contains (weekdayName w)) = true ↔ w = 6 ∨ w = 0 := by
  interval_cases w <;> decide

lemma weekdayName_tue_fri_iff (w : ℤ) (h0 : 0 ≤ w) (h6 : w < 7) :
    (["Tuesday", "Wednesday", "Thursday", "Friday"].contains (weekdayName w))
        = true ↔ w = 2 ∨ w = 3 ∨ w = 4 ∨ w = 5 := by
  interval_cases w <;> decide

/-! ## Shared concrete examples -/

/-- Configuration with both environment variables unset. -/
def cfg0 : Config := ⟨none, none⟩

/-- A 40-hour-per-week user (capacity 144000 seconds). -/
def u40 : User := ⟨1, some 144000⟩

/-- A 24-hour-per-week user (capacity 86400 seconds). -/
def u24 : User := ⟨2, some 86400⟩

/-! ## Claims -/

/-- C3: the week-splitting workday calculator returns exactly the number of
calendar days in the inclusive range whose day of week is Monday through
Friday, for every range with start at most end; in particular a Monday-Friday
span of one week gives 5, full Sunday-to-Saturday calendar weeks give 5 per
week, and a single day counts 1 on a weekday and 0 on a weekend day. -/
theorem workday_count_refines_weekday_count :
    (∀ s e : ℤ, s ≤ e → workday_count s e = weekdayCountSpec s e) ∧
    (∀ s : ℤ, momentDay s = 1 → workday_count s (s + 4) = 5) ∧
    (∀ (s : ℤ) (k : ℕ), momentDay s = 0 →
        workday_count s (s + (7 * (k : ℤ) + 6)) = 5 * ((k : ℤ) + 1)) ∧
    (∀ s : ℤ, workday_count s s = if isWeekday s then 1 else 0) := by
  refine ⟨workday_count_correct, ?_, ?_, workday_count_self⟩
  · intro s hs
    simp only [workday_count, momentDiffDays_eq, momentDay, endOfWeekDay,
      startOfWeekDay] at hs ⊢
    split_ifs <;> omega
  · intro s k hs
    simp only [workday_count, momentDiffDays_eq, momentDay, endOfWeekDay,
      startOfWeekDay] at hs ⊢
    split_ifs <;> omega

/-- Witness for C3 at concrete inputs: the January 2024 day numbers 1 to 31,
a Monday-to-Friday week, a single full week and a single weekday. -/
theorem workday_count_refines_weekday_count_witness :
    (1 : ℤ) ≤ 31 ∧ workday_count 1 31 = weekdayCountSpec 1 31 ∧
    momentDay 1 = 1 ∧ workday_count 1 5 = 5 ∧
    momentDay 0 = 0 ∧ workday_count 0 6 = 5 ∧
    workday_count 3 3 = if isWeekday 3 then 1 else 0 := by
  refine ⟨by norm_num, workday_count_refines_weekday_count.1 1 31 (by norm_num),
    by decide, ?_, by decide, ?_,
    workday_count_refines_weekday_count.2.2.2 3⟩
  · simpa using workday_count_refines_weekday_count.2.1 1 (by decide)
  · simpa using workday_count_refines_weekday_count.2.2.1 0 0 (by decide)

/-- C4: the capacity normalizer divides the weekly capacity in seconds by 3600
and by the hours per day (default 8) and rounds half-up to two decimal places;
144000 seconds give 5 days, 86400 give 3, 72000 give 2.5, and 144000 with ten
hours per day gives 4. -/
theorem calculateExpectedWorkingDays_spec :
    (∀ weeklyCapacitySeconds hoursPerDay : ℚ,
        calculateExpectedWorkingDays weeklyCapacitySeconds hoursPerDay =
          ((⌊weeklyCapacitySeconds / 3600 / hoursPerDay * 100 + 1 / 2⌋ : ℤ) : ℚ)
            / 100) ∧
    calculateExpectedWorkingDays 144000 = 5 ∧
    calculateExpectedWorkingDays 86400 = 3 ∧
    calculateExpectedWorkingDays 72000 = 2.5 ∧
    calculateExpectedWorkingDays 144000 10 = 4 := by
  refine ⟨fun w h => rfl, ?_, ?_, ?_, ?_⟩ <;>
    norm_num [calculateExpectedWorkingDays, jsRound]

/-- C9: when the fetched user roster is missing or not an array, the analyzer
answers the empty list (total function, no exception) for every cadence,
range and time report. -/
theorem analyzeHarvestData_missing_roster :
    ∀ (cfg : Config) (report : List TimeEntry) (f t : ℤ) (nt : String),
      analyzeHarvestData cfg none report f t nt = [] :=
  fun _ _ _ _ _ => rfl

/-- C5: the any-cadence eligibility filter answers false exactly when the
weekly capacity is null, undefined, zero or negative, true otherwise, and a
user it rejects never contributes a record to the analyzer output for any
cadence. -/
theorem shouldIncludeInNotifications_spec :
    (∀ u : User,
        shouldIncludeInNotifications u = false ↔
          u.weekly_capacity = none ∨
            ∃ w, u.weekly_capacity = some w ∧ w ≤ 0) ∧
    (∀ (cfg : Config) (users : List User) (report : List TimeEntry)
        (f t : ℤ) (nt : String) (u : User),
        shouldIncludeInNotifications u = false →
        ∀ r ∈ analyzeHarvestData cfg (some users) report f t nt,
          r.user ≠ u) := by
  constructor
  · intro u
    cases hw : u.weekly_capacity with
    | none => simp [shouldIncludeInNotifications, hw]
    | some w =>
        simp only [shouldIncludeInNotifications, hw]
        split_ifs with hc
        · have hle : w ≤ 0 := by rcases hc with h | h; exacts [le_of_eq h, h]
          simp [hle]
        · push_neg at hc
          have hpos : 0 < w / 3600 := div_pos hc.2 (by norm_num)
          simp [hpos, hc.2.not_le]
  · intro cfg users report f t nt u hu r hr hru
    simp only [analyzeHarvestData, List.mem_filterMap] at hr
    obtain ⟨v, -, hv⟩ := hr
    rw [analyzeUser_eq_some] at hv
    obtain ⟨hvi, -, -, hreq⟩ := hv
    rw [hreq] at hru
    simp only at hru
    rw [hru] at hvi
    rw [hu] at hvi
    cases hvi

/-- Witness for C5: a zero-capacity user is rejected by the filter. -/
theorem shouldIncludeInNotifications_spec_witness :
    shouldIncludeInNotifications ⟨3, some 0⟩ = false :=
  (shouldIncludeInNotifications_spec.1 ⟨3, some 0⟩).mpr
    (Or.inr ⟨0, rfl, le_refl 0⟩)

/-- C6: for a user with a valid capacity the daily filter answers true exactly
when the capacity in hours is at least the configured daily capacity threshold
(default 0), the boundary being inclusive; and the filter only affects the
daily cadence: for any other cadence a user failing it is still emitted
whenever the any-cadence filter passes and the hours fall short. -/
theorem shouldIncludeInDailyNotifications_spec :
    (∀ (cfg : Config) (u : User) (w : ℚ), u.weekly_capacity = some w → 0 < w →
        (shouldIncludeInDailyNotifications cfg u = true ↔
          w / 3600 ≥ dailyThresholdVal cfg)) ∧
    (∀ cfg : Config, cfg.dailyCapacityThreshold = none →
        dailyThresholdVal cfg = 0) ∧
    (∀ (cfg : Config) (u : User) (w : ℚ), u.weekly_capacity = some w →
        w / 3600 = dailyThresholdVal cfg →
        shouldIncludeInDailyNotifications cfg u = true) ∧
    (∀ (cfg : Config) (report : List TimeEntry) (f t : ℤ) (nt : String)
        (u : User), nt ≠ "daily" →
        shouldIncludeInDailyNotifications cfg u = false →
        shouldIncludeInNotifications u = true →
        sumHoursFor report u.id < calculatePersonalizedThreshold cfg u nt f t →
        analyzeUser cfg report f t nt u =
          some ⟨u, sumHoursFor report u.id,
            calculatePersonalizedThreshold cfg u nt f t⟩) := by
  refine ⟨?_, fun cfg h => by simp [dailyThresholdVal, h], ?_, ?_⟩
  · intro cfg u w hw hpos
    simp [shouldIncludeInDailyNotifications, wcVal, hw]
  · intro cfg u w hw heq
    simp [shouldIncludeInDailyNotifications, wcVal, hw, ge_iff_le, heq.ge]
  · intro cfg report f t nt u hnt hdf hin hlt
    rw [analyzeUser_eq_some]
    exact ⟨hin, fun hd => absurd hd hnt, hlt, rfl⟩

/-- Witness for C6 at concrete inputs: with a daily capacity threshold of 40
hours, the 24-hour user fails the daily filter yet is still emitted for the
weekly cadence on an empty time report. -/
theorem shouldIncludeInDailyNotifications_spec_witness :
    (u24.weekly_capacity = some 86400 ∧ (0 : ℚ) < 86400 ∧
      (shouldIncludeInDailyNotifications ⟨none, some 40⟩ u24 = true ↔
        (86400 : ℚ) / 3600 ≥ dailyThresholdVal ⟨none, some 40⟩)) ∧
    (("weekly" : String) ≠ "daily" ∧
      shouldIncludeInDailyNotifications ⟨none, some 40⟩ u24 = false ∧
      shouldIncludeInNotifications u24 = true ∧
      sumHoursFor [] u24.id <
        calculatePersonalizedThreshold ⟨none, some 40⟩ u24 "weekly" 1 31 ∧
      analyzeUser ⟨none, some 40⟩ [] 1 31 "weekly" u24 =
        some ⟨u24, sumHoursFor [] u24.id,
          calculatePersonalizedThreshold ⟨none, some 40⟩ u24 "weekly" 1 31⟩) := by
  have hcalc : calculatePersonalizedThreshold ⟨none, some 40⟩ u24 "weekly" 1 31
      = 45 / 2 := by
    rw [calculatePersonalizedThreshold, if_neg (by decide), if_pos rfl]
    norm_num [baseHoursPerDay, calculateExpectedWorkingDays, jsRound, wcVal, u24]
  have hlt : sumHoursFor [] u24.id <
      calculatePersonalizedThreshold ⟨none, some 40⟩ u24 "weekly" 1 31 := by
    rw [hcalc]
    norm_num [sumHoursFor]
  have hdf : shouldIncludeInDailyNotifications ⟨none, some 40⟩ u24 = false := by
    norm_num [shouldIncludeInDailyNotifications, dailyThresholdVal, wcVal, u24,
      decide_eq_false_iff_not]
  have hin : shouldIncludeInNotifications u24 = true := by
    norm_num [shouldIncludeInNotifications, u24, decide_eq_true_eq]
  refine ⟨⟨rfl, by norm_num,
    shouldIncludeInDailyNotifications_spec.1 ⟨none, some 40⟩ u24 86400 rfl
      (by norm_num)⟩,
    by decide, hdf, hin, hlt,
    shouldIncludeInDailyNotifications_spec.2.2.2 ⟨none, some 40⟩ [] 1 31
      "weekly" u24 (by decide) hdf hin hlt⟩

/-- C2: the analyzer emits a record for a user exactly when the user passes
the any-cadence filter, passes the daily filter when the cadence is daily,
and the summed hours of the matching time entries fall strictly below the
personalized threshold; every record carries that sum and that threshold, so
every record satisfies totalHours strictly below expectedHours. -/
theorem analyzeHarvestData_emission_spec :
    ∀ (cfg : Config) (users : List User) (report : List TimeEntry)
      (f t : ℤ) (nt : String),
      (∀ u : User,
        (∃ r ∈ analyzeHarvestData cfg (some users) report f t nt,
            r.user = u) ↔
          (u ∈ users ∧ shouldIncludeInNotifications u = true ∧
            (nt = "daily" → shouldIncludeInDailyNotifications cfg u = true) ∧
            sumHoursFor report u.id <
              calculatePersonalizedThreshold cfg u nt f t)) ∧
      (∀ r ∈ analyzeHarvestData cfg (some users) report f t nt,
        r.totalHours = sumHoursFor report r.user.id ∧
        r.expectedHours = calculatePersonalizedThreshold cfg r.user nt f t ∧
        r.totalHours < r.expectedHours) := by
  intro cfg users report f t nt
  constructor
  · intro u
    constructor
    · rintro ⟨r, hr, hru⟩
      simp only [analyzeHarvestData, List.mem_filterMap] at hr
      obtain ⟨v, hv_mem, hv⟩ := hr
      rw [analyzeUser_eq_some] at hv
      obtain ⟨h1, h2, h3, h4⟩ := hv
      have huv : v = u := by rw [h4] at hru; exact hru
      subst huv
      exact ⟨hv_mem, h1, h2, h3⟩
    · rintro ⟨hmem, h1, h2, h3⟩
      refine ⟨⟨u, sumHoursFor report u.id,
        calculatePersonalizedThreshold cfg u nt f t⟩, ?_, rfl⟩
      simp only [analyzeHarvestData, List.mem_filterMap]
      exact ⟨u, hmem, (analyzeUser_eq_some cfg report f t nt u _).mpr
        ⟨h1, h2, h3, rfl⟩⟩
  · intro r hr
    simp only [analyzeHarvestData, List.mem_filterMap] at hr
    obtain ⟨v, -, hv⟩ := hr
    rw [analyzeUser_eq_some] at hv
    obtain ⟨-, -, h3, h4⟩ := hv
    subst h4
    exact ⟨rfl, rfl, h3⟩

/-- Witness for C2: on a concrete roster the 40-hour user with one 2.5-hour
entry is emitted for the weekly cadence. -/
theorem analyzeHarvestData_emission_spec_witness :
    u40 ∈ [u40] ∧ shouldIncludeInNotifications u40 = true ∧
    (("weekly" : String) = "daily" →
      shouldIncludeInDailyNotifications cfg0 u40 = true) ∧
    sumHoursFor [⟨1, 5/2⟩] u40.id <
      calculatePersonalizedThreshold cfg0 u40 "weekly" 1 31 ∧
    (∃ r ∈ analyzeHarvestData cfg0 (some [u40]) [⟨1, 5/2⟩] 1 31 "weekly",
      r.user = u40) := by
  have hin : shouldIncludeInNotifications u40 = true := by
    norm_num [shouldIncludeInNotifications, u40, decide_eq_true_eq]
  have hd : ("weekly" : String) = "daily" →
      shouldIncludeInDailyNotifications cfg0 u40 = true := fun h => absurd h (by decide)
  have hlt : sumHoursFor [⟨1, 5/2⟩] u40.id <
      calculatePersonalizedThreshold cfg0 u40 "weekly" 1 31 := by
    rw [calculatePersonalizedThreshold, if_neg (by decide), if_pos rfl]
    norm_num [sumHoursFor, baseHoursPerDay, calculateExpectedWorkingDays,
      jsRound, wcVal, u40, cfg0, List.filter, List.foldl]
  exact ⟨List.mem_singleton.mpr rfl, hin, hd, hlt,
    ((analyzeHarvestData_emission_spec cfg0 [u40] [⟨1, 5/2⟩] 1 31 "weekly").1
      u40).mpr ⟨List.mem_singleton.mpr rfl, hin, hd, hlt⟩⟩

/-- C1: the threshold engine returns the base hours for the daily cadence,
base times expected working days for weekly, base times the prorated workday
count for monthly, and the base for any other tag; the base defaults to 7.5
when the configured value is unset or unparseable.  Concretely (day numbers
1 to 31 standing for 2024-01-01, a Monday, through 2024-01-31, with 23
workdays): a 40-hour user gets 7.5 daily, 37.5 weekly, 172.5 monthly, and a
24-hour user gets 22.5 weekly. -/
theorem calculatePersonalizedThreshold_spec :
    (∀ (cfg : Config) (u : User) (f t : ℤ), f ≤ t →
        calculatePersonalizedThreshold cfg u "daily" f t = baseHoursPerDay cfg ∧
        calculatePersonalizedThreshold cfg u "weekly" f t =
          baseHoursPerDay cfg * calculateExpectedWorkingDays (wcVal u) ∧
        calculatePersonalizedThreshold cfg u "monthly" f t =
          baseHoursPerDay cfg *
            ((workday_count f t : ℚ) * calculateExpectedWorkingDays (wcVal u)
              / 5) ∧
        ∀ nt : String, nt ≠ "daily" → nt ≠ "weekly" → nt ≠ "monthly" →
          calculatePersonalizedThreshold cfg u nt f t = baseHoursPerDay cfg) ∧
    (∀ cfg : Config, cfg.missingHoursThreshold = none →
        baseHoursPerDay cfg = 7.5) ∧
    workday_count 1 31 = 23 ∧
    calculatePersonalizedThreshold cfg0 u40 "daily" 1 31 = 7.5 ∧
    calculatePersonalizedThreshold cfg0 u40 "weekly" 1 31 = 37.5 ∧
    calculatePersonalizedThreshold cfg0 u40 "monthly" 1 31 = 172.5 ∧
    calculatePersonalizedThreshold cfg0 u24 "weekly" 1 31 = 22.5 := by
  have h23 : workday_count 1 31 = 23 := by decide
  refine ⟨?_, fun cfg h => by simp [baseHoursPerDay, h], h23, ?_, ?_, ?_, ?_⟩
  · intro cfg u f t hft
    refine ⟨by rw [calculatePersonalizedThreshold, if_pos rfl],
      by rw [calculatePersonalizedThreshold, if_neg (by decide), if_pos rfl],
      by rw [calculatePersonalizedThreshold, if_neg (by decide),
        if_neg (by decide), if_pos rfl], ?_⟩
    intro nt h1 h2 h3
    rw [calculatePersonalizedThreshold, if_neg h1, if_neg h2, if_neg h3]
  · rw [calculatePersonalizedThreshold, if_pos rfl]
    norm_num [baseHoursPerDay, cfg0]
  · rw [calculatePersonalizedThreshold, if_neg (by decide), if_pos rfl]
    norm_num [baseHoursPerDay, calculateExpectedWorkingDays, jsRound, wcVal,
      u40, cfg0]
  · rw [calculatePersonalizedThreshold, if_neg (by decide), if_neg (by decide),
      if_pos rfl, h23]
    norm_num [baseHoursPerDay, calculateExpectedWorkingDays, jsRound, wcVal,
      u40, cfg0]
  · rw [calculatePersonalizedThreshold, if_neg (by decide), if_pos rfl]
    norm_num [baseHoursPerDay, calculateExpectedWorkingDays, jsRound, wcVal,
      u24, cfg0]

/-- Witness for C1 at a concrete range. -/
theorem calculatePersonalizedThreshold_spec_witness :
    (1 : ℤ) ≤ 31 ∧
    calculatePersonalizedThreshold cfg0 u40 "weekly" 1 31 =
      baseHoursPerDay cfg0 * calculateExpectedWorkingDays (wcVal u40) :=
  ⟨by norm_num,
    (calculatePersonalizedThreshold_spec.1 cfg0 u40 1 31 (by norm_num)).2.1⟩

/-- C10: for a fixed cadence, a fixed range with start at most end and a
positive base, the personalized threshold is monotone nondecreasing in the
weekly capacity of two otherwise identical users. -/
theorem calculatePersonalizedThreshold_monotone :
    ∀ (cfg : Config) (nt : String) (f t i : ℤ) (w v : ℚ),
      f ≤ t → 0 < baseHoursPerDay cfg → w ≤ v →
      calculatePersonalizedThreshold cfg ⟨i, some w⟩ nt f t ≤
        calculatePersonalizedThreshold cfg ⟨i, some v⟩ nt f t := by
  intro cfg nt f t i w v hft hbase hwv
  have hexp : calculateExpectedWorkingDays w ≤ calculateExpectedWorkingDays v := by
    unfold calculateExpectedWorkingDays jsRound
    have h1 : w / 3600 / 8 * 100 + 1 / 2 ≤ v / 3600 / 8 * 100 + 1 / 2 := by
      gcongr
    have h3 : ((⌊w / 3600 / 8 * 100 + 1 / 2⌋ : ℤ) : ℚ) ≤
        ((⌊v / 3600 / 8 * 100 + 1 / 2⌋ : ℤ) : ℚ) := by
      exact_mod_cast Int.floor_mono h1
    linarith
  have hwd : (0 : ℚ) ≤ ((workday_count f t : ℤ) : ℚ) := by
    have h0 : 0 ≤ workday_count f t := by
      rw [workday_count_correct f t hft]
      unfold weekdayCountSpec
      exact Int.natCast_nonneg _
    exact_mod_cast h0
  unfold calculatePersonalizedThreshold
  simp only [wcVal, Option.getD_some]
  split_ifs
  · exact le_refl _
  · exact mul_le_mul_of_nonneg_left hexp hbase.le
  · have hmid : (workday_count f t : ℚ) * calculateExpectedWorkingDays w / 5 ≤
        (workday_count f t : ℚ) * calculateExpectedWorkingDays v / 5 := by
      have := mul_le_mul_of_nonneg_left hexp hwd
      linarith
    exact mul_le_mul_of_nonneg_left hmid hbase.le
  · exact le_refl _

/-- Witness for C10: the larger-capacity user has the larger weekly
threshold. -/
theorem calculatePersonalizedThreshold_monotone_witness :
    (1 : ℤ) ≤ 31 ∧ 0 < baseHoursPerDay cfg0 ∧ (86400 : ℚ) ≤ 144000 ∧
    calculatePersonalizedThreshold cfg0 ⟨7, some 86400⟩ "weekly" 1 31 ≤
      calculatePersonalizedThreshold cfg0 ⟨7, some 144000⟩ "weekly" 1 31 :=
  ⟨by norm_num, by norm_num [baseHoursPerDay, cfg0], by norm_num,
    calculatePersonalizedThreshold_monotone cfg0 "weekly" 1 31 7 86400 144000
      (by norm_num) (by norm_num [baseHoursPerDay, cfg0]) (by norm_num)⟩

/-- C7: the range computer answers yesterday twice for the daily cadence on
Tuesday through Friday, three days back twice (the prior Friday) on Monday,
Monday-of-the-week through today for weekly, the first through the last day
of the current month for monthly, and signals an error on any other tag. -/
theorem getDateRangeForNotification_spec :
    ∀ today : Date, ValidDate today →
      ((dowOfDate today = 2 ∨ dowOfDate today = 3 ∨ dowOfDate today = 4 ∨
          dowOfDate today = 5) →
        getDateRangeForNotification "daily" today =
          Except.ok (subDays today 1, subDays today 1) ∧
        toDayNumber (subDays today 1) = toDayNumber today - 1) ∧
      (dowOfDate today = 1 →
        getDateRangeForNotification "daily" today =
          Except.ok (subDays today 3, subDays today 3) ∧
        toDayNumber (subDays today 3) = toDayNumber today - 3 ∧
        dowOfDate (subDays today 3) = 5) ∧
      (∃ mon : Date,
        getDateRangeForNotification "weekly" today = Except.ok (mon, today) ∧
        toDayNumber mon = toDayNumber today - dowOfDate today + 1 ∧
        dowOfDate mon = 1) ∧
      getDateRangeForNotification "monthly" today =
        Except.ok (⟨today.year, today.month, 1⟩,
          ⟨today.year, today.month, daysInMonth today.year today.month⟩) ∧
      (∀ nt : String, nt ≠ "daily" → nt ≠ "weekly" → nt ≠ "monthly" →
        getDateRangeForNotification nt today =
          Except.error ("Unknown notification type: " ++ nt)) := by
  intro today hval
  obtain ⟨hb0, hb7⟩ := dowOfDate_bounds today
  refine ⟨?_, ?_, ?_, ?_, ?_⟩
  · intro hd
    have hc : (["Tuesday", "Wednesday", "Thursday", "Friday"].contains
        (weekdayName (dowOfDate today))) = true :=
      (weekdayName_tue_fri_iff _ hb0 hb7).mpr hd
    constructor
    · rw [getDateRangeForNotification, if_pos rfl, if_pos hc]
    · rw [(subDays_lemma today hval 1).2]
      norm_num
  · intro hd
    have hc : ¬ ((["Tuesday", "Wednesday", "Thursday", "Friday"].contains
        (weekdayName (dowOfDate today))) = true) := by
      rw [weekdayName_tue_fri_iff _ hb0 hb7]
      omega
    refine ⟨?_, ?_, ?_⟩
    · rw [getDateRangeForNotification, if_pos rfl, if_neg hc]
    · rw [(subDays_lemma today hval 3).2]
      norm_num
    · have h3 := (subDays_lemma today hval 3).2
      show (toDayNumber (subDays today 3) + 4) % 7 = 5
      rw [h3]
      have hN : dowOfDate today = (toDayNumber today + 4) % 7 := rfl
      push_cast
      omega
  · refine ⟨addDays (subDays today (dowOfDate today).toNat) 1, ?_, ?_, ?_⟩
    · rw [getDateRangeForNotification, if_neg (by decide), if_pos rfl]
    · rw [(addDays_lemma _ (subDays_lemma today hval
          (dowOfDate today).toNat).1 1).2,
        (subDays_lemma today hval (dowOfDate today).toNat).2,
        Int.toNat_of_nonneg hb0]
      push_cast
      ring
    · have hN : toDayNumber (addDays (subDays today (dowOfDate today).toNat) 1)
          = toDayNumber today - dowOfDate today + 1 := by
        rw [(addDays_lemma _ (subDays_lemma today hval
            (dowOfDate today).toNat).1 1).2,
          (subDays_lemma today hval (dowOfDate today).toNat).2,
          Int.toNat_of_nonneg hb0]
        push_cast
        ring
      show (toDayNumber (addDays (subDays today (dowOfDate today).toNat) 1)
          + 4) % 7 = 1
      rw [hN]
      have hd : dowOfDate today = (toDayNumber today + 4) % 7 := rfl
      omega
  · rw [getDateRangeForNotification, if_neg (by decide), if_neg (by decide),
      if_pos rfl]
    rfl
  · intro nt h1 h2 h3
    rw [getDateRangeForNotification, if_neg h1, if_neg h2, if_neg h3]

/-- Witness for C7: Monday 2024-01-08 checks back three days to Friday
2024-01-05. -/
theorem getDateRangeForNotification_spec_witness :
    ValidDate ⟨2024, 1, 8⟩ ∧ dowOfDate ⟨2024, 1, 8⟩ = 1 ∧
    getDateRangeForNotification "daily" ⟨2024, 1, 8⟩ =
      Except.ok (subDays ⟨2024, 1, 8⟩ 3, subDays ⟨2024, 1, 8⟩ 3) :=
  ⟨by decide, by decide,
    ((getDateRangeForNotification_spec ⟨2024, 1, 8⟩ (by decide)).2.1
      (by decide)).1⟩

/-- C8 (counterexample to the claim as stated): 2025-05-31 is a Saturday and
the last day of its month, yet the active set on it is not empty — it is
exactly the monthly tag. -/
theorem determineNotificationsToRun_weekend_counterexample :
    dowOfDate ⟨2025, 5, 31⟩ = 6 ∧
    determineNotificationsToRun ⟨2025, 5, 31⟩ = ["monthly"] := by
  constructor
  · decide
  · decide

/-- C8 (amended): daily is active exactly on non-weekend days, weekly exactly
on Fridays, monthly exactly on the last calendar day of the month; on a
Saturday or Sunday that is not the last day of its month the active set is
empty (on a month-end weekend day the monthly cadence still runs). -/
theorem determineNotificationsToRun_spec :
    ∀ today : Date,
      ("daily" ∈ determineNotificationsToRun today ↔
        ¬(dowOfDate today = 6 ∨ dowOfDate today = 0)) ∧
      ("weekly" ∈ determineNotificationsToRun today ↔ dowOfDate today = 5) ∧
      ("monthly" ∈ determineNotificationsToRun today ↔
        today.day = daysInMonth today.year today.month) ∧
      ((dowOfDate today = 6 ∨ dowOfDate today = 0) →
        today.day ≠ daysInMonth today.year today.month →
        determineNotificationsToRun today = []) := by
  intro today
  obtain ⟨hb0, hb7⟩ := dowOfDate_bounds today
  have hwk := weekdayName_weekend_iff (dowOfDate today) hb0 hb7
  have hfr := weekdayName_friday_iff (dowOfDate today) hb0 hb7
  have hmo : (today = endOfMonth today) ↔
      today.day = daysInMonth today.year today.month := by
    cases today with
    | mk y m d => simp [endOfMonth, Date.mk.injEq]
  have hwk' : (["Saturday", "Sunday"].contains (weekdayName (dowOfDate today)))
      = false ↔ ¬(dowOfDate today = 6 ∨ dowOfDate today = 0) := by
    rw [Bool.eq_false_iff]
    exact not_congr hwk
  unfold determineNotificationsToRun
  simp only [hwk', hfr, hmo]
  split_ifs with h1 h2 h3 h3 h2 h3 h3 <;> simp [h1, h2, h3] <;> omega

/-- Witness for the amended C8: Saturday 2024-01-20, not a month end, has an
empty active set. -/
theorem determineNotificationsToRun_spec_witness :
    (dowOfDate ⟨2024, 1, 20⟩ = 6 ∨ dowOfDate ⟨2024, 1, 20⟩ = 0) ∧
    (Date.mk 2024 1 20).day ≠ daysInMonth 2024 1 ∧
    determineNotificationsToRun ⟨2024, 1, 20⟩ = [] :=
  ⟨Or.inl (by decide), by decide,
    (determineNotificationsToRun_spec ⟨2024, 1, 20⟩).2.2.2
      (Or.inl (by decide)) (by decide)⟩
